import Mathlib

/-!
Shallow embedding of the MQTT telemetry state store in `src/python/app.py`
(`MQTTState`, `get_mqtt_state`, `on_connect`, `on_disconnect`, `on_message`),
together with runs of the store over sequences of callback events.

Values produced by `json.loads` are modelled by the inductive `Json`
(numbers as integers; none of the verified properties depends on the value
of a number beyond zero/non-zero truthiness).  The decoding pipeline
`json.loads(msg.payload.decode())` is library code, so a message carries
the outcome of that decoding as an oracle field `decoded`: a successfully
parsed value, a `json.JSONDecodeError`, or any other exception (for
example a `UnicodeDecodeError` raised by `bytes.decode`).
-/

/-- A value produced by `json.loads`. -/
inductive Json where
  | null : Json
  | bool (b : Bool) : Json
  | num (n : Int) : Json
  | str (s : String) : Json
  | arr (elems : List Json) : Json
  | obj (fields : List (String × Json)) : Json

mutual

/-- Decidable equality on `Json` values. -/
def Json.decEq : (a b : Json) → Decidable (a = b)
  | .null, .null => isTrue rfl
  | .bool a, .bool b =>
      if h : a = b then isTrue (h ▸ rfl)
      else isFalse (fun hh => h (Json.bool.inj hh))
  | .num a, .num b =>
      if h : a = b then isTrue (h ▸ rfl)
      else isFalse (fun hh => h (Json.num.inj hh))
  | .str a, .str b =>
      if h : a = b then isTrue (h ▸ rfl)
      else isFalse (fun hh => h (Json.str.inj hh))
  | .arr as, .arr bs =>
      match Json.decEqList as bs with
      | isTrue h => isTrue (h ▸ rfl)
      | isFalse h => isFalse (fun hh => h (Json.arr.inj hh))
  | .obj fs, .obj gs =>
      match Json.decEqFields fs gs with
      | isTrue h => isTrue (h ▸ rfl)
      | isFalse h => isFalse (fun hh => h (Json.obj.inj hh))
  | .null, .bool _ => isFalse (fun h => Json.noConfusion h)
  | .null, .num _ => isFalse (fun h => Json.noConfusion h)
  | .null, .str _ => isFalse (fun h => Json.noConfusion h)
  | .null, .arr _ => isFalse (fun h => Json.noConfusion h)
  | .null, .obj _ => isFalse (fun h => Json.noConfusion h)
  | .bool _, .null => isFalse (fun h => Json.noConfusion h)
  | .bool _, .num _ => isFalse (fun h => Json.noConfusion h)
  | .bool _, .str _ => isFalse (fun h => Json.noConfusion h)
  | .bool _, .arr _ => isFalse (fun h => Json.noConfusion h)
  | .bool _, .obj _ => isFalse (fun h => Json.noConfusion h)
  | .num _, .null => isFalse (fun h => Json.noConfusion h)
  | .num _, .bool _ => isFalse (fun h => Json.noConfusion h)
  | .num _, .str _ => isFalse (fun h => Json.noConfusion h)
  | .num _, .arr _ => isFalse (fun h => Json.noConfusion h)
  | .num _, .obj _ => isFalse (fun h => Json.noConfusion h)
  | .str _, .null => isFalse (fun h => Json.noConfusion h)
  | .str _, .bool _ => isFalse (fun h => Json.noConfusion h)
  | .str _, .num _ => isFalse (fun h => Json.noConfusion h)
  | .str _, .arr _ => isFalse (fun h => Json.noConfusion h)
  | .str _, .obj _ => isFalse (fun h => Json.noConfusion h)
  | .arr _, .null => isFalse (fun h => Json.noConfusion h)
  | .arr _, .bool _ => isFalse (fun h => Json.noConfusion h)
  | .arr _, .num _ => isFalse (fun h => Json.noConfusion h)
  | .arr _, .str _ => isFalse (fun h => Json.noConfusion h)
  | .arr _, .obj _ => isFalse (fun h => Json.noConfusion h)
  | .obj _, .null => isFalse (fun h => Json.noConfusion h)
  | .obj _, .bool _ => isFalse (fun h => Json.noConfusion h)
  | .obj _, .num _ => isFalse (fun h => Json.noConfusion h)
  | .obj _, .str _ => isFalse (fun h => Json.noConfusion h)
  | .obj _, .arr _ => isFalse (fun h => Json.noConfusion h)

/-- Decidable equality on lists of `Json` values. -/
def Json.decEqList : (as bs : List Json) → Decidable (as = bs)
  | [], [] => isTrue rfl
  | [], _ :: _ => isFalse (fun h => List.noConfusion h)
  | _ :: _, [] => isFalse (fun h => List.noConfusion h)
  | a :: as, b :: bs =>
      match Json.decEq a b with
      | isFalse h => isFalse (fun hh => h (List.head_eq_of_cons_eq hh))
      | isTrue h1 =>
        match Json.decEqList as bs with
        | isTrue h2 => isTrue (h1 ▸ h2 ▸ rfl)
        | isFalse h => isFalse (fun hh => h (List.tail_eq_of_cons_eq hh))

/-- Decidable equality on `Json` object field lists. -/
def Json.decEqFields : (fs gs : List (String × Json)) → Decidable (fs = gs)
  | [], [] => isTrue rfl
  | [], _ :: _ => isFalse (fun h => List.noConfusion h)
  | _ :: _, [] => isFalse (fun h => List.noConfusion h)
  | (k1, v1) :: fs, (k2, v2) :: gs =>
      if hk : k1 = k2 then
        match Json.decEq v1 v2 with
        | isFalse h =>
            isFalse (fun hh => h (congrArg Prod.snd (List.head_eq_of_cons_eq hh)))
        | isTrue hv =>
          match Json.decEqFields fs gs with
          | isTrue ht => isTrue (hk ▸ hv ▸ ht ▸ rfl)
          | isFalse h => isFalse (fun hh => h (List.tail_eq_of_cons_eq hh))
      else
        isFalse (fun hh => hk (congrArg Prod.fst (List.head_eq_of_cons_eq hh)))

end

instance : DecidableEq Json := Json.decEq

/-- Python truthiness of a value produced by `json.loads`, as tested by the
source line `if userdata.latest:` (app.py line 106). -/
def pyTruthy : Json → Bool
  | .null => false
  | .bool b => b
  | .num n => n != 0
  | .str s => !s.isEmpty
  | .arr elems => !elems.isEmpty
  | .obj fields => !fields.isEmpty

/-- Exceptions that the `try` block of `on_message` can raise. -/
inductive PyExn where
  | jsonDecodeError : PyExn
  | attributeError : PyExn
  | other (e : String) : PyExn
deriving DecidableEq

/-- Outcome of `json.loads(msg.payload.decode())`, carried by the message
as an oracle for the library decoding step (app.py line 104). -/
inductive DecodeOutcome where
  | ok (payload : Json) : DecodeOutcome
  | jsonError : DecodeOutcome
  | otherError (e : String) : DecodeOutcome
deriving DecidableEq

/-- An inbound `mqtt.MQTTMessage`: topic, raw payload bytes, and the
decode oracle. -/
structure MQTTMessage where
  topic : String
  payload : String
  decoded : DecodeOutcome
deriving DecidableEq

/-- The application state, `MQTTState.__init__` fields
(app.py lines 45-53). -/
structure MQTTState where
  connected : Bool
  history : List Json
  latest : Json
  previous : Json
  max_history : Nat
deriving DecidableEq

/-- The state built by `MQTTState.__init__`: `connected = False`,
empty history, `latest = \x7b\x7d`, `previous = \x7b\x7d`,
`max_history = 100`. -/
def MQTTState.init : MQTTState :=
  { connected := false
    history := []
    latest := Json.obj []
    previous := Json.obj []
    max_history := 100 }

/-- `get_mqtt_state` (app.py lines 56-58): the process-wide cached
singleton, whose value at creation time is `MQTTState.init`. -/
def get_mqtt_state : MQTTState := MQTTState.init

/-- Log events emitted by the exception handlers of `on_message`
(app.py lines 115-118). -/
inductive LogEvent where
  | invalidJson (rawPayload : String) : LogEvent
  | processingError (e : PyExn) : LogEvent
deriving DecidableEq

/-- The mutation of app.py lines 109-113 once the `previous` rotation has
been settled: set `latest` to the payload, append the payload to
`history`, and `pop(0)` the oldest entry when the bound is exceeded. -/
def applyRest (s : MQTTState) (payload : Json) : MQTTState :=
  let h := s.history ++ [payload]
  { s with latest := payload
           history := if h.length > s.max_history then h.tail else h }

/-- The body of the `try` block of `on_message` after JSON decoding
succeeded (app.py lines 106-113).  The call `userdata.latest.copy()` is
only reached when `userdata.latest` is truthy; it raises
`AttributeError` unless that value is a dict or a list, the only
JSON-decoded Python values with a `copy` method. -/
def applyBody (s : MQTTState) (payload : Json) : Except PyExn MQTTState :=
  if pyTruthy s.latest then
    match s.latest with
    | .obj _ | .arr _ =>
        Except.ok (applyRest { s with previous := s.latest } payload)
    | _ => Except.error PyExn.attributeError
  else
    Except.ok (applyRest s payload)

/-- The whole `try` block of `on_message` (app.py lines 103-113), with a
raised exception represented as `Except.error`. -/
def on_message_try (s : MQTTState) (m : MQTTMessage) : Except PyExn MQTTState :=
  match m.decoded with
  | .ok payload => applyBody s payload
  | .jsonError => Except.error PyExn.jsonDecodeError
  | .otherError e => Except.error (PyExn.other e)

/-- The log line produced by the `except` clause that matches a given
exception: `json.JSONDecodeError` is reported with the raw payload,
every other exception through the generic handler. -/
def logFor (rawPayload : String) : PyExn → LogEvent
  | .jsonDecodeError => LogEvent.invalidJson rawPayload
  | e => LogEvent.processingError e

/-- `on_message` (app.py lines 94-118): run the `try` block; every
exception raised by it is caught and logged, and the state is left
unchanged in that case. -/
def on_message (s : MQTTState) (m : MQTTMessage) : MQTTState × List LogEvent :=
  match on_message_try s m with
  | .ok s' => (s', [])
  | .error e => (s, [logFor m.payload e])

/-- `on_connect` (app.py lines 62-81): only the `connected` flag is
written (the subscription call is an external side effect). -/
def on_connect (s : MQTTState) (rc : Nat) : MQTTState :=
  if rc = 0 then { s with connected := true } else { s with connected := false }

/-- `on_disconnect` (app.py lines 84-91). -/
def on_disconnect (s : MQTTState) : MQTTState :=
  { s with connected := false }

/-- One callback delivered by the paho client loop. -/
inductive Event where
  | connect (rc : Nat) : Event
  | disconnect : Event
  | message (m : MQTTMessage) : Event
deriving DecidableEq

/-- The state transition performed by one callback. -/
def stepEvent (s : MQTTState) : Event → MQTTState
  | .connect rc => on_connect s rc
  | .disconnect => on_disconnect s
  | .message m => (on_message s m).1

/-- Run a sequence of callbacks from a state. -/
def runFrom (s : MQTTState) : List Event → MQTTState
  | [] => s
  | e :: es => runFrom (stepEvent s e) es

/-- The samples one event applies to the state: a message contributes its
decoded payload exactly when the `try` body runs to completion. -/
def stepApplied (s : MQTTState) : Event → List Json
  | .message m =>
    match m.decoded with
    | .ok p => match applyBody s p with | .ok _ => [p] | .error _ => []
    | _ => []
  | _ => []

/-- All samples a sequence of callbacks applies, in arrival order. -/
def appliedSamples (s : MQTTState) : List Event → List Json
  | [] => []
  | e :: es => stepApplied s e ++ appliedSamples (stepEvent s e) es

/-- The last `n` elements of a list. -/
def lastN (n : Nat) (l : List α) : List α := l.drop (l.length - n)

/-- The record a consumer observes for a given device identifier.  The
source keeps a single process-wide `MQTTState` (the `get_mqtt_state`
singleton) and the reading loop consults `state.latest`,
`state.previous` and `state.history` without consulting any device
identity, so the observed record is the same shared triple for every
identifier. -/
def deviceRecord (s : MQTTState) (_deviceId : String) : Json × Json × List Json :=
  (s.latest, s.previous, s.history)

/-- Split a character list on the path delimiter, matching the behaviour
of Python `str.split` with a separator argument. -/
def splitSegs (cs : List Char) : List (List Char) :=
  cs.foldr
    (fun c acc =>
      match acc with
      | s :: rest => if c = '/' then [] :: s :: rest else (c :: s) :: rest
      | [] => [[c]])
    [[]]

/-- Modelled from the spec (no identifier derivation exists in the
source): split the topic on the path delimiter and take the final
segment, with sentinel "unknown" for topics having fewer than two
segments.  Stated only for comparison with the source behaviour. -/
def specDeviceId (topic : String) : String :=
  let segs := splitSegs topic.toList
  if segs.length < 2 then "unknown" else String.mk (segs.getLastD [])

/-- A field value the specification says the router retains (numeric or
boolean). -/
def isScalarKeep : Json → Bool
  | .num _ => true
  | .bool _ => true
  | _ => false

/-- Modelled from the spec (no field filtering exists in the source): the
field list the router would retain from a parsed document, namely the
numeric-or-boolean-valued fields in document order.  Stated only for
comparison with the source behaviour. -/
def specRetainFields (fs : List (String × Json)) : List (String × Json) :=
  fs.filter (fun kv => isScalarKeep kv.2)

/-- A sequence of 101 well-formed messages, used to witness the history
bound. -/
def fifoWitnessEvents : List Event :=
  List.replicate 101
    (Event.message
      { topic := "sensor/all", payload := "x",
        decoded := DecodeOutcome.ok (Json.obj [("t", Json.num 1)]) })

/-- Messages used in the rotation counterexample and witness. -/
def rotMsg1 : MQTTMessage :=
  { topic := "sensor/all", payload := "p1",
    decoded := DecodeOutcome.ok (Json.obj [("a", Json.num 1)]) }

/-- Second rotation message: its payload is the empty JSON object. -/
def rotMsg2 : MQTTMessage :=
  { topic := "sensor/all", payload := "p2",
    decoded := DecodeOutcome.ok (Json.obj []) }

/-- Third rotation message. -/
def rotMsg3 : MQTTMessage :=
  { topic := "sensor/all", payload := "p3",
    decoded := DecodeOutcome.ok (Json.obj [("b", Json.num 2)]) }

/-- The state after the first rotation message, used by the witness. -/
def rotState1 : MQTTState := applyRest MQTTState.init (Json.obj [("a", Json.num 1)])

/-- The payload used in the field-retention counterexample: one
string-valued field and one numeric field. -/
def c6Payload : Json := Json.obj [("name", Json.str "x"), ("temperature", Json.num 21)]


section BasicLemmas

theorem applyRest_latest (s : MQTTState) (p : Json) : (applyRest s p).latest = p := rfl

theorem applyRest_previous (s : MQTTState) (p : Json) :
    (applyRest s p).previous = s.previous := rfl

theorem applyRest_max (s : MQTTState) (p : Json) :
    (applyRest s p).max_history = s.max_history := rfl

theorem applyRest_history (s : MQTTState) (p : Json) :
    (applyRest s p).history =
      if (s.history ++ [p]).length > s.max_history
      then (s.history ++ [p]).tail else s.history ++ [p] := rfl

theorem applyBody_ok_shape (s : MQTTState) (p : Json) (s' : MQTTState)
    (h : applyBody s p = Except.ok s') :
    s' = applyRest { s with previous := s.latest } p ∨ s' = applyRest s p := by
  unfold applyBody at h
  split at h
  · split at h
    · exact Or.inl (Except.ok.inj h).symm
    · exact Or.inl (Except.ok.inj h).symm
    · exact absurd h (by simp)
  · exact Or.inr (Except.ok.inj h).symm

theorem applyBody_ok_facts (s : MQTTState) (p : Json) (s' : MQTTState)
    (h : applyBody s p = Except.ok s') :
    s'.latest = p ∧ s'.max_history = s.max_history ∧
      s'.history =
        (if (s.history ++ [p]).length > s.max_history
         then (s.history ++ [p]).tail else s.history ++ [p]) := by
  rcases applyBody_ok_shape s p s' h with h' | h' <;> subst h' <;>
    exact ⟨rfl, rfl, rfl⟩

theorem stepEvent_message_ok (s : MQTTState) (m : MQTTMessage) (s' : MQTTState)
    (h : on_message_try s m = Except.ok s') :
    stepEvent s (Event.message m) = s' := by
  simp [stepEvent, on_message, h]

theorem stepEvent_message_err (s : MQTTState) (m : MQTTMessage) (e : PyExn)
    (h : on_message_try s m = Except.error e) :
    stepEvent s (Event.message m) = s := by
  simp [stepEvent, on_message, h]

theorem stepEvent_connected_only (s : MQTTState) (e : Event)
    (hc : ∀ m, e ≠ Event.message m) :
    (stepEvent s e).history = s.history ∧
      (stepEvent s e).max_history = s.max_history ∧
      (stepEvent s e).latest = s.latest ∧
      (stepEvent s e).previous = s.previous := by
  cases e with
  | connect rc =>
      by_cases h0 : rc = 0 <;> simp [stepEvent, on_connect, h0]
  | disconnect => simp [stepEvent, on_disconnect]
  | message m => exact absurd rfl (hc m)

end BasicLemmas

section LastNLemmas

theorem lastN_length {α : Type} (n : Nat) (l : List α) :
    (lastN n l).length = min n l.length := by
  simp only [lastN, List.length_drop]
  omega

theorem lastN_of_le {α : Type} {n : Nat} {l : List α} (h : l.length ≤ n) :
    lastN n l = l := by
  simp only [lastN, Nat.sub_eq_zero_of_le h, List.drop_zero]

theorem lastN_tail_append {α : Type} {n : Nat} {l : List α} (r : List α)
    (h : n < l.length) : lastN n (l.tail ++ r) = lastN n (l ++ r) := by
  cases l with
  | nil => simp at h
  | cons a t =>
      simp only [List.tail_cons, lastN, List.length_append, List.length_cons,
        List.cons_append]
      have hn : n ≤ t.length := by
        have := h
        simp only [List.length_cons] at this
        omega
      rw [show t.length + r.length + 1 - n = (t.length + r.length - n) + 1 from by omega,
        List.drop_succ_cons]

end LastNLemmas

section RunHistory

theorem runFrom_history (es : List Event) : ∀ s : MQTTState,
    s.history.length ≤ s.max_history →
    (runFrom s es).max_history = s.max_history ∧
    (runFrom s es).history = lastN s.max_history (s.history ++ appliedSamples s es) := by
  induction es with
  | nil =>
      intro s hs
      exact ⟨rfl, by rw [appliedSamples, List.append_nil, lastN_of_le hs]; rfl⟩
  | cons e es ih =>
      intro s hs
      simp only [runFrom, appliedSamples]
      cases e with
      | connect rc =>
          obtain ⟨hh, hmx, -, -⟩ :=
            stepEvent_connected_only s (Event.connect rc) (fun m h => Event.noConfusion h)
          obtain ⟨ihm, ihh⟩ := ih (stepEvent s (Event.connect rc)) (by rw [hh, hmx]; exact hs)
          refine ⟨by rw [ihm, hmx], ?_⟩
          rw [ihh, hh, hmx]
          simp [stepApplied]
      | disconnect =>
          obtain ⟨hh, hmx, -, -⟩ :=
            stepEvent_connected_only s Event.disconnect (fun m h => Event.noConfusion h)
          obtain ⟨ihm, ihh⟩ := ih (stepEvent s Event.disconnect) (by rw [hh, hmx]; exact hs)
          refine ⟨by rw [ihm, hmx], ?_⟩
          rw [ihh, hh, hmx]
          simp [stepApplied]
      | message m =>
          cases hm : m.decoded with
          | ok p =>
              cases hab : applyBody s p with
              | ok s1 =>
                  have htry : on_message_try s m = Except.ok s1 := by
                    simp [on_message_try, hm, hab]
                  have hstep : stepEvent s (Event.message m) = s1 :=
                    stepEvent_message_ok s m s1 htry
                  have hsa : stepApplied s (Event.message m) = [p] := by
                    simp [stepApplied, hm, hab]
                  obtain ⟨-, hmx, hh⟩ := applyBody_ok_facts s p s1 hab
                  have hlen1 : s1.history.length ≤ s1.max_history := by
                    rw [hh, hmx]
                    split
                    · simp only [List.length_tail, List.length_append,
                        List.length_cons, List.length_nil]
                      omega
                    · omega
                  obtain ⟨ihm, ihh⟩ := ih s1 hlen1
                  refine ⟨by rw [hstep, ihm, hmx], ?_⟩
                  rw [hstep, ihh, hsa, hmx, hh]
                  split
                  · rename_i hcond
                    rw [← List.append_assoc]
                    exact lastN_tail_append (appliedSamples s1 es) hcond
                  · rw [List.append_assoc]
              | error ex =>
                  have htry : on_message_try s m = Except.error ex := by
                    simp [on_message_try, hm, hab]
                  have hstep : stepEvent s (Event.message m) = s :=
                    stepEvent_message_err s m ex htry
                  have hsa : stepApplied s (Event.message m) = [] := by
                    simp [stepApplied, hm, hab]
                  obtain ⟨ihm, ihh⟩ := ih s hs
                  rw [hstep, hsa]
                  exact ⟨ihm, by rw [ihh]; simp⟩
          | jsonError =>
              have htry : on_message_try s m = Except.error PyExn.jsonDecodeError := by
                simp [on_message_try, hm]
              have hstep : stepEvent s (Event.message m) = s :=
                stepEvent_message_err s m _ htry
              have hsa : stepApplied s (Event.message m) = [] := by
                simp [stepApplied, hm]
              obtain ⟨ihm, ihh⟩ := ih s hs
              rw [hstep, hsa]
              exact ⟨ihm, by rw [ihh]; simp⟩
          | otherError ex =>
              have htry : on_message_try s m = Except.error (PyExn.other ex) := by
                simp [on_message_try, hm]
              have hstep : stepEvent s (Event.message m) = s :=
                stepEvent_message_err s m _ htry
              have hsa : stepApplied s (Event.message m) = [] := by
                simp [stepApplied, hm]
              obtain ⟨ihm, ihh⟩ := ih s hs
              rw [hstep, hsa]
              exact ⟨ihm, by rw [ihh]; simp⟩

end RunHistory

section LatestInv

theorem getLastD_concat_own {α : Type} (d a : α) (l : List α) :
    (l ++ [a]).getLastD d = a := by
  induction l generalizing d with
  | nil => rfl
  | cons b t ih => rw [List.cons_append, List.getLastD_cons]; exact ih b

theorem on_message_try_ok (s : MQTTState) (m : MQTTMessage) (s1 : MQTTState)
    (h : on_message_try s m = Except.ok s1) :
    ∃ p, m.decoded = DecodeOutcome.ok p ∧ applyBody s p = Except.ok s1 := by
  cases hd : m.decoded with
  | ok p =>
      refine ⟨p, rfl, ?_⟩
      simp only [on_message_try, hd] at h
      exact h
  | jsonError => simp [on_message_try, hd] at h
  | otherError e => simp [on_message_try, hd] at h

theorem runFrom_latest_inv (es : List Event) : ∀ s : MQTTState,
    s.history.getLastD (Json.obj []) = s.latest → 1 ≤ s.max_history →
    (runFrom s es).history.getLastD (Json.obj []) = (runFrom s es).latest ∧
      (runFrom s es).max_history = s.max_history := by
  induction es with
  | nil => intro s h1 _; exact ⟨h1, rfl⟩
  | cons e es ih =>
      intro s h1 h2
      simp only [runFrom]
      cases e with
      | connect rc =>
          obtain ⟨hh, hmx, hl, -⟩ :=
            stepEvent_connected_only s (Event.connect rc) (fun m h => Event.noConfusion h)
          obtain ⟨ih1, ih2⟩ := ih _ (by rw [hh, hl]; exact h1) (by rw [hmx]; exact h2)
          exact ⟨ih1, by rw [ih2, hmx]⟩
      | disconnect =>
          obtain ⟨hh, hmx, hl, -⟩ :=
            stepEvent_connected_only s Event.disconnect (fun m h => Event.noConfusion h)
          obtain ⟨ih1, ih2⟩ := ih _ (by rw [hh, hl]; exact h1) (by rw [hmx]; exact h2)
          exact ⟨ih1, by rw [ih2, hmx]⟩
      | message m =>
          cases htry : on_message_try s m with
          | ok s1 =>
            have hstep : stepEvent s (Event.message m) = s1 :=
              stepEvent_message_ok s m s1 htry
            rw [hstep]
            obtain ⟨p, hd, hab⟩ := on_message_try_ok s m s1 htry
            obtain ⟨hl, hmx, hh⟩ := applyBody_ok_facts s p s1 hab
            have hinv1 : s1.history.getLastD (Json.obj []) = s1.latest := by
              rw [hh, hl]
              split
              · rename_i hcond
                cases hhist : s.history with
                | nil =>
                    rw [hhist] at hcond
                    simp at hcond
                    omega
                | cons b t =>
                    rw [List.cons_append, List.tail_cons]
                    exact getLastD_concat_own _ _ _
              · exact getLastD_concat_own _ _ _
            obtain ⟨ih1, ih2⟩ := ih s1 hinv1 (by rw [hmx]; exact h2)
            exact ⟨ih1, by rw [ih2, hmx]⟩
          | error ex =>
            have hstep : stepEvent s (Event.message m) = s :=
              stepEvent_message_err s m ex htry
            rw [hstep]
            exact ih s h1 h2

end LatestInv

section Claims

/-- Claim C1: in every run of the store from its initial state, the history
always equals the last 100 applied samples in arrival order, its length
never exceeds 100, and after more than 100 applied updates its length is
exactly 100 — each applied update appends the new sample and evicts
exactly the oldest entry when the bound would be exceeded. -/
theorem history_bounded_fifo (es : List Event) :
    (runFrom MQTTState.init es).history
        = lastN 100 (appliedSamples MQTTState.init es) ∧
      (runFrom MQTTState.init es).history.length ≤ 100 ∧
      ((appliedSamples MQTTState.init es).length > 100 →
        (runFrom MQTTState.init es).history.length = 100) := by
  obtain ⟨hm, hh⟩ := runFrom_history es MQTTState.init (by decide)
  have h100 : MQTTState.init.max_history = 100 := rfl
  have hnil : MQTTState.init.history = [] := rfl
  rw [h100, hnil, List.nil_append] at hh
  refine ⟨hh, ?_, ?_⟩
  · rw [hh, lastN_length]; omega
  · intro hgt; rw [hh, lastN_length]; omega


/-- Witness for C1: after 101 applied updates the history has length
exactly 100. -/
theorem history_bounded_fifo_witness :
    (appliedSamples MQTTState.init fifoWitnessEvents).length > 100 ∧
      (runFrom MQTTState.init fifoWitnessEvents).history.length = 100 :=
  ⟨by decide, (history_bounded_fifo fifoWitnessEvents).2.2 (by decide)⟩

/-- Claim C5: a message whose payload fails JSON decoding causes no state
mutation at all — the state after `on_message` is exactly the state
before it — and the failure is reported with the raw payload. -/
theorem decode_failure_isolated (s : MQTTState) (t pl : String) :
    on_message s { topic := t, payload := pl, decoded := DecodeOutcome.jsonError }
      = (s, [LogEvent.invalidJson pl]) := rfl

/-- Claim C7: in every run of the store (initial state, applied updates,
decode failures, connect and disconnect transitions), `latest` equals the
last element of `history` whenever `history` is non-empty, and equals the
empty-dict absent value whenever `history` is empty (both facts expressed
by one `getLastD` equation). -/
theorem latest_matches_history (es : List Event) :
    ((runFrom MQTTState.init es).history).getLastD (Json.obj [])
      = (runFrom MQTTState.init es).latest :=
  (runFrom_latest_inv es MQTTState.init rfl (by decide)).1

/-- Claim C8: the disconnect callback mutates only the connection flag:
`latest`, `previous` and `history` — and hence the record observed for
any device identifier — are unchanged. -/
theorem disconnect_frame (s : MQTTState) (d : String) :
    (on_disconnect s).latest = s.latest ∧
      (on_disconnect s).previous = s.previous ∧
      (on_disconnect s).history = s.history ∧
      deviceRecord (on_disconnect s) d = deviceRecord s d :=
  ⟨rfl, rfl, rfl, rfl⟩

/-- Claim C10: `on_message` is total — for every inbound message it either
applies the update and returns the new state, or (when the try block
raises any exception: JSON decode failure or any other error) it catches
the exception, leaves the state unchanged and reports the failure; no
exception propagates to the caller. -/
theorem on_message_total (s : MQTTState) (m : MQTTMessage) :
    (∃ s', on_message_try s m = Except.ok s' ∧ on_message s m = (s', [])) ∨
      (∃ e, on_message_try s m = Except.error e ∧
        on_message s m = (s, [logFor m.payload e])) := by
  cases htry : on_message_try s m with
  | ok s' => exact Or.inl ⟨s', rfl, by simp [on_message, htry]⟩
  | error e => exact Or.inr ⟨e, rfl, by simp [on_message, htry]⟩

end Claims

section CorrectedClaims


/-- Claim C2 is refuted on the code: after applying the samples
`\x7b"a": 1\x7d`, `\x7b\x7d`, `\x7b"b": 2\x7d` in order, the third update
is applied, yet `previous` afterwards is NOT the `latest` that was
present immediately before it — the truthiness guard
`if userdata.latest:` skips the copy when `latest` is the empty object,
so `previous` keeps its older value. -/
theorem rotation_copy_counterexample :
    stepApplied (runFrom MQTTState.init [Event.message rotMsg1, Event.message rotMsg2])
        (Event.message rotMsg3) ≠ [] ∧
      (runFrom MQTTState.init
            [Event.message rotMsg1, Event.message rotMsg2, Event.message rotMsg3]).previous
        ≠ (runFrom MQTTState.init [Event.message rotMsg1, Event.message rotMsg2]).latest :=
  ⟨by decide, by decide⟩

/-- Claim C2 (amended): applying `u1` then `u2` to the previously-empty
store leaves `previous = u1` and `latest = u2` for all object samples;
in general an applied update copies the present `latest` into `previous`
only when `latest` is truthy (non-empty): when `latest` is falsy the copy
is skipped and `previous` is left unchanged, and when `latest` is a
non-empty object the copy happens. -/
theorem rotation_latest_previous :
    (∀ (f1 f2 : List (String × Json)) (m1 m2 : MQTTMessage),
        m1.decoded = DecodeOutcome.ok (Json.obj f1) →
        m2.decoded = DecodeOutcome.ok (Json.obj f2) →
        (on_message (on_message MQTTState.init m1).1 m2).1.previous = Json.obj f1 ∧
          (on_message (on_message MQTTState.init m1).1 m2).1.latest = Json.obj f2) ∧
      (∀ (s : MQTTState) (p : Json), pyTruthy s.latest = false →
          applyBody s p = Except.ok (applyRest s p) ∧
            (applyRest s p).previous = s.previous) ∧
      (∀ (s : MQTTState) (p : Json) (fs : List (String × Json)),
          s.latest = Json.obj fs → fs ≠ [] →
          applyBody s p
              = Except.ok (applyRest { s with previous := s.latest } p) ∧
            (applyRest { s with previous := s.latest } p).previous = s.latest) := by
  refine ⟨?_, ?_, ?_⟩
  · intro f1 f2 m1 m2 h1 h2
    cases f1 with
    | nil =>
        constructor <;>
          simp [on_message, on_message_try, h1, h2, applyBody, applyRest,
            pyTruthy, MQTTState.init]
    | cons kv f1' =>
        constructor <;>
          simp [on_message, on_message_try, h1, h2, applyBody, applyRest,
            pyTruthy, MQTTState.init]
  · intro s p h
    refine ⟨?_, rfl⟩
    unfold applyBody
    rw [h]
    simp
  · intro s p fs hlat hne
    refine ⟨?_, rfl⟩
    have ht : pyTruthy s.latest = true := by
      rw [hlat]
      cases fs with
      | nil => exact absurd rfl hne
      | cons kv t => rfl
    unfold applyBody
    rw [if_pos ht, hlat]


/-- Witness for the amended C2 at concrete inputs. -/
theorem rotation_latest_previous_witness :
    ((on_message (on_message MQTTState.init rotMsg1).1 rotMsg3).1.previous
        = Json.obj [("a", Json.num 1)] ∧
      (on_message (on_message MQTTState.init rotMsg1).1 rotMsg3).1.latest
        = Json.obj [("b", Json.num 2)]) ∧
    (applyBody MQTTState.init (Json.num 7)
        = Except.ok (applyRest MQTTState.init (Json.num 7)) ∧
      (applyRest MQTTState.init (Json.num 7)).previous = MQTTState.init.previous) ∧
    (applyBody rotState1 (Json.num 8)
        = Except.ok (applyRest { rotState1 with previous := rotState1.latest } (Json.num 8)) ∧
      (applyRest { rotState1 with previous := rotState1.latest } (Json.num 8)).previous
        = rotState1.latest) :=
  ⟨rotation_latest_previous.1 [("a", Json.num 1)] [("b", Json.num 2)] rotMsg1 rotMsg3 rfl rfl,
   rotation_latest_previous.2.1 MQTTState.init (Json.num 7) rfl,
   rotation_latest_previous.2.2 rotState1 (Json.num 8) [("a", Json.num 1)] rfl (by decide)⟩

/-- Claim C3 is refuted on the code: there are no per-device records — a
message whose topic names device "A" changes the record observed for
device "B". -/
theorem device_isolation_counterexample :
    ¬ (deviceRecord
          (stepEvent MQTTState.init
            (Event.message
              { topic := "sensor/A", payload := "x",
                decoded := DecodeOutcome.ok (Json.obj [("t", Json.num 1)]) }))
          "B"
        = deviceRecord MQTTState.init "B") := by decide

/-- Claim C3 (amended): the store maintains a single process-wide record
shared by every device identifier: processing a message is independent of
the device named in its topic, and the record observed for any two
identifiers is the same, so a mutation made while processing a message
for device A is observed for device B as well. -/
theorem shared_record_no_isolation (s : MQTTState) (m : MQTTMessage) (t d1 d2 : String) :
    on_message s { m with topic := t } = on_message s m ∧
      deviceRecord s d1 = deviceRecord s d2 :=
  ⟨rfl, rfl⟩

/-- Claim C4 is refuted on the code: ingestion never derives a device
identifier from the topic — two topics whose spec-mandated identifiers
differ are processed identically. -/
theorem topic_device_id_counterexample :
    specDeviceId "sensor/a" ≠ specDeviceId "sensor/b" ∧
      on_message MQTTState.init
          { topic := "sensor/a", payload := "x",
            decoded := DecodeOutcome.ok (Json.obj [("t", Json.num 1)]) }
        = on_message MQTTState.init
          { topic := "sensor/b", payload := "x",
            decoded := DecodeOutcome.ok (Json.obj [("t", Json.num 1)]) } :=
  ⟨by decide, rfl⟩

/-- Claim C4 (amended): `on_message` ignores the topic entirely — no
device identifier is derived from it, and every message, whatever its
topic (single-segment topics included), is applied to the single shared
record in the same way. -/
theorem topic_ignored (s : MQTTState) (m : MQTTMessage) (t : String) :
    on_message s m = on_message s { m with topic := t } := rfl


/-- Claim C6 is refuted on the code: the stored sample is NOT the
spec-described filtering that keeps only numeric-or-boolean fields — the
string-valued field survives. -/
theorem retained_fields_counterexample :
    ¬ ((on_message MQTTState.init
          { topic := "sensor/all", payload := "x",
            decoded := DecodeOutcome.ok c6Payload }).1.latest
        = Json.obj
            (specRetainFields [("name", Json.str "x"), ("temperature", Json.num 21)])) := by
  decide

/-- Claim C6 (amended): for every successfully parsed payload that is
applied, the stored sample is the parsed payload itself — every field is
retained, whatever the type of its value, in document order (hence
deterministically). -/
theorem all_fields_retained (s : MQTTState) (p : Json) (s' : MQTTState)
    (h : applyBody s p = Except.ok s') : s'.latest = p :=
  (applyBody_ok_facts s p s' h).1

/-- Witness for the amended C6 at a concrete input. -/
theorem all_fields_retained_witness :
    (applyRest MQTTState.init c6Payload).latest = c6Payload :=
  all_fields_retained MQTTState.init c6Payload (applyRest MQTTState.init c6Payload) rfl

end CorrectedClaims